import Mathlib

/-!
Shallow embedding of the consul lifecycle facade (package `consul`).

The Go sources embedded here are `consul.go` (the `Broker` implementation over
the consul agent API) and the wrapper file (the `Wrapper` facade:
`StartMetrics`, `StopMetrics`, `Register`, `Deregister`, `SendHealthCheck`,
`NewWrapper`, `isUseConsul`, `getServicePort`).

Modelling conventions:
- A Go `error` value is `Option String` (`none` = nil, `some m` = an error
  whose `Error()` message is `m`).
- The external consul backend (`Broker` interface) is modelled as a record of
  response functions; each facade operation returns, besides its Go result,
  the list of backend calls it issued so that call-counting properties can be
  stated.  Likewise the agent API used by `broker.SendHealthCheck` is a record
  of response functions together with an emitted call trace.
- `go func() { startMetricServer ... }()` launches a concurrent HTTP listener;
  it performs no Broker call and is outside the sequential model (it is spawned
  only in the enabled branch, which the embedding notes in a comment).
- `log.Println` output is modelled as a `logs : List String` component where a
  claim mentions reported failures (`getServicePort`).
- `os.Environ()` is modelled by an explicit environment parameter,
  a list of (name, value) pairs rendered as `"name=value"` strings.
-/

namespace Consul

/-- Go `error` as an optional message: `none` is `nil`. -/
abbrev GoError := Option String

/-- Go `strings.Contains`: membership of `sub.data` as a contiguous infix,
computed by scanning suffixes (executable). -/
def charsContains (sub : List Char) : List Char → Bool
  | [] => decide (sub = [])
  | c :: cs => sub.isPrefixOf (c :: cs) || charsContains sub cs

/-- `strings.Contains s sub` on strings. -/
def goContains (s sub : String) : Bool :=
  charsContains sub.data s.data

/-- Digit-run parser used by the `strconv.Atoi` model: all characters must be
decimal digits and there must be at least one. -/
def parseDigits (cs : List Char) : Option Nat :=
  if cs = [] then none
  else if cs.all Char.isDigit then
    some (cs.foldl (fun n c => n * 10 + (c.toNat - ('0').toNat)) 0)
  else none

/-- Go `strconv.Atoi`: optional sign then base-10 digits; anything else is a
syntax error carrying strconv\x27s message.  (The int64 range check `ErrRange`
is not modelled; no claim involves values near 2^63.) -/
def goAtoi (s : String) : Except String Int :=
  match s.data with
  | '+' :: rest =>
    match parseDigits rest with
    | some n => .ok (Int.ofNat n)
    | none => .error ("strconv.Atoi: parsing \x22" ++ s ++ "\x22: invalid syntax")
  | '-' :: rest =>
    match parseDigits rest with
    | some n => .ok (-(Int.ofNat n))
    | none => .error ("strconv.Atoi: parsing \x22" ++ s ++ "\x22: invalid syntax")
  | cs =>
    match parseDigits cs with
    | some n => .ok (Int.ofNat n)
    | none => .error ("strconv.Atoi: parsing \x22" ++ s ++ "\x22: invalid syntax")

/-- Go `strings.Split(s, ":")` on the character list: split at every colon,
keeping empty fields (so `splitOnColon [] = [[]]`, as in Go). -/
def splitOnColon : List Char → List (List Char)
  | [] => [[]]
  | c :: cs =>
    if c = ':' then [] :: splitOnColon cs
    else
      match splitOnColon cs with
      | [] => [[c]]
      | g :: gs => (c :: g) :: gs

/-- `CheckOptions` from consul.go (zero value: all fields empty strings). -/
structure CheckOptions where
  HTTP : String := ""
  Interval : String := ""
  TTL : String := ""
deriving Repr, DecidableEq

/-- `Service` from consul.go (zero-value `Check` when omitted, as in Go). -/
structure Service where
  Name : String
  ID : String
  Port : Int
  Tags : List String
  Check : CheckOptions := {}
deriving Repr, DecidableEq

/-- One call issued to the backend `Broker` interface. -/
inductive BrokerCall where
  | register (serviceData : Service)
  | deregister (serviceID : String)
  | sendHealthCheck (serviceID : String) (errMsg : String)
deriving Repr, DecidableEq

/-- The backend `Broker` dependency, modelled by its response to each call
(the facade treats it as an opaque capability). -/
structure Broker where
  registerResp : Service → GoError
  deregisterResp : String → GoError
  healthResp : String → String → GoError

/-- The `wrapper` struct behind the `Wrapper` interface.  Go zero values
(`""`, `0`) are the defaults used by `NewWrapper` for the fields it leaves
unset. -/
structure Wrapper where
  isUseConsul : Bool
  serviceName : String
  serviceID : String
  servicePromID : String := ""
  servicePort : Int := 0
  monitorPort : Int := 0
  consulBroker : Broker

/-- Result of one facade operation: the wrapper after the call (Go methods
take `*wrapper`), the Broker calls issued during the call in order, and the
returned Go error. -/
structure OpResult where
  w : Wrapper
  calls : List BrokerCall
  err : GoError

/-- The `promService` literal built inside `StartMetrics`. -/
def promServiceFor (serviceName servicePromID : String) (monitorPort : Int) : Service :=
  { Name := serviceName, ID := servicePromID, Port := monitorPort, Tags := ["prom"] }

/-- `(w *wrapper) StartMetrics(monitorPort int, servicePromID string) error`.
The `go func() { startMetricServer ... }()` launch is an HTTP listener on a
separate goroutine: it issues no Broker call and is outside this sequential
model; it is spawned only in the enabled branch. -/
def Wrapper.StartMetrics (w : Wrapper) (monitorPort : Int) (servicePromID : String) : OpResult :=
  if !w.isUseConsul then ⟨w, [], none⟩
  else
    let w' := { w with monitorPort := monitorPort, servicePromID := servicePromID }
    let promService := promServiceFor w.serviceName servicePromID monitorPort
    match w.consulBroker.registerResp promService with
    | some e =>
      ⟨w', [.register promService],
        some ("can not register service " ++ promService.ID ++ " in consul " ++ e)⟩
    | none => ⟨w', [.register promService], none⟩

/-- `(w *wrapper) StopMetrics() error`. -/
def Wrapper.StopMetrics (w : Wrapper) : OpResult :=
  if !w.isUseConsul then ⟨w, [], none⟩
  else
    match w.consulBroker.deregisterResp w.servicePromID with
    | some e =>
      ⟨w, [.deregister w.servicePromID],
        some ("do not deregister consul service " ++ w.servicePromID ++ ", got error " ++ e)⟩
    | none => ⟨w, [.deregister w.servicePromID], none⟩

/-- The `appService` literal built inside `Register`, after the
`if version != "" { tags = append(tags, version) }` step.
`time.Duration(5 * time.Second).String()` is the Go string `"5s"`. -/
def appServiceFor (w : Wrapper) (tags : List String) (version : String) : Service :=
  { Name := w.serviceName, ID := w.serviceID, Port := w.servicePort,
    Tags := if version ≠ "" then tags ++ [version] else tags,
    Check := { TTL := "5s" } }

/-- `(w *wrapper) Register(tags []string, version string) error`. -/
def Wrapper.Register (w : Wrapper) (tags : List String) (version : String) : OpResult :=
  if !w.isUseConsul then ⟨w, [], none⟩
  else
    let appService := appServiceFor w tags version
    match w.consulBroker.registerResp appService with
    | some e =>
      ⟨w, [.register appService],
        some ("do not deregister consul service " ++ w.serviceID ++ ", got error " ++ e)⟩
    | none => ⟨w, [.register appService], none⟩

/-- `(w *wrapper) Deregister() error`. -/
def Wrapper.Deregister (w : Wrapper) : OpResult :=
  if !w.isUseConsul then ⟨w, [], none⟩
  else
    match w.consulBroker.deregisterResp w.serviceID with
    | some e =>
      ⟨w, [.deregister w.serviceID],
        some ("do not deregister consul service " ++ w.serviceID ++ ", got error " ++ e)⟩
    | none => ⟨w, [.deregister w.serviceID], none⟩

/-- `(w *wrapper) SendHealthCheck(err error) error`.  The Broker error is
returned as-is in both branches (`return err`, with no `fmt.Errorf` wrap). -/
def Wrapper.SendHealthCheck (w : Wrapper) (observedError : GoError) : OpResult :=
  if !w.isUseConsul then ⟨w, [], none⟩
  else
    match observedError with
    | some msg =>
      match w.consulBroker.healthResp w.serviceID msg with
      | some e => ⟨w, [.sendHealthCheck w.serviceID msg], some e⟩
      | none => ⟨w, [.sendHealthCheck w.serviceID msg], none⟩
    | none =>
      match w.consulBroker.healthResp w.serviceID "" with
      | some e => ⟨w, [.sendHealthCheck w.serviceID ""], some e⟩
      | none => ⟨w, [.sendHealthCheck w.serviceID ""], none⟩

/-- Result of `getServicePort`: the named returns `(port, err)` plus the
`log.Println` lines it emitted. -/
structure PortResult where
  port : Int
  err : GoError
  logs : List String
deriving Repr, DecidableEq

/-- The `len(colon) >= 2` branch of `getServicePort`: `strconv.Atoi(colon[1])`
with the named-return convention (`port` stays `0` on error). -/
def portResultOfSeg (seg : List Char) : PortResult :=
  match goAtoi (String.mk seg) with
  | .ok p => ⟨p, none, []⟩
  | .error e => ⟨0, some e, ["fail parse service port " ++ e]⟩

/-- `getServicePort(hostPort string) (port int, err error)`.  The first match
arm is Go\x27s `len(colon) >= 2` case (it reads `colon[1]`, the second field);
the catch-all is the `len(colon) < 2` case, which logs and returns the zero
values `(0, nil)` (the bare `return` returns a NIL error). -/
def getServicePort (hostPort : String) : PortResult :=
  match splitOnColon hostPort.data with
  | _ :: seg :: _ => portResultOfSeg seg
  | _ => ⟨0, none, ["fail parse service port. not found \x27:\x27"]⟩

/-- `os.Environ()`: each environment variable rendered as `"name=value"`. -/
def environ (env : List (String × String)) : List String :=
  env.map fun kv => kv.1 ++ "=" ++ kv.2

/-- `isUseConsul() bool`: true iff some `"name=value"` entry of the process
environment contains the substring `"CONSUL_"`. -/
def isUseConsul (env : List (String × String)) : Bool :=
  (environ env).any fun environment => goContains environment "CONSUL_"

/-- `NewWrapper(listen string, consulBroker Broker, serviceName, serviceID
string) (Wrapper, error)`, with the ambient `os.Environ()` passed explicitly. -/
def NewWrapper (env : List (String × String)) (listen : String) (consulBroker : Broker)
    (serviceName serviceID : String) : Except String Wrapper :=
  let r := getServicePort listen
  match r.err with
  | some e => .error ("can\x27t parse service port " ++ e)
  | none =>
    .ok { isUseConsul := isUseConsul env, serviceName := serviceName, serviceID := serviceID,
          servicePromID := "", servicePort := r.port, monitorPort := 0,
          consulBroker := consulBroker }

/-- One call issued to the consul agent API by the `broker` implementation. -/
inductive AgentCall where
  | passTTL (checkID note : String)
  | failTTL (checkID note : String)
deriving Repr, DecidableEq

/-- The consul agent client used by `broker`, modelled by its responses to
`PassTTL` and `FailTTL`. -/
structure Agent where
  passResp : String → String → GoError
  failResp : String → String → GoError

/-- `(b *broker) SendHealthCheck(serviceID string, error string) error` from
consul.go: empty message ⇒ `PassTTL("service:"+serviceID, "ok")`, otherwise
`FailTTL("service:"+serviceID, error)`; returns the agent calls it issued and
the Go result. -/
def brokerSendHealthCheck (ag : Agent) (serviceID errMsg : String) :
    List AgentCall × GoError :=
  if errMsg = "" then
    match ag.passResp ("service:" ++ serviceID) "ok" with
    | some e => ([.passTTL ("service:" ++ serviceID) "ok"], some e)
    | none => ([.passTTL ("service:" ++ serviceID) "ok"], none)
  else
    match ag.failResp ("service:" ++ serviceID) errMsg with
    | some e => ([.failTTL ("service:" ++ serviceID) errMsg], some e)
    | none => ([.failTTL ("service:" ++ serviceID) errMsg], none)

/-! Helper lemmas about the substring scan and the colon split. -/

/-- The suffix scan agrees with contiguous-infix membership. -/
theorem charsContains_iff (sub : List Char) :
    ∀ l, charsContains sub l = true ↔ sub <:+: l := by
  intro l
  induction l with
  | nil => simp [charsContains, List.infix_nil]
  | cons c cs ih =>
    simp [charsContains, List.isPrefixOf_iff_prefix, ih, List.infix_cons_iff]

/-- String-level version of `charsContains_iff`. -/
theorem goContains_iff (s sub : String) :
    goContains s sub = true ↔ sub.data <:+: s.data :=
  charsContains_iff sub.data s.data

/-- A four-part concatenation contains its second part. -/
theorem goContains_left_mid (pre sub mid post : String) :
    goContains (pre ++ sub ++ mid ++ post) sub = true := by
  rw [goContains_iff]
  refine ⟨pre.data, mid.data ++ post.data, ?_⟩
  simp [String.data_append, List.append_assoc]

/-- A concatenation contains its final part. -/
theorem goContains_right_part (pre sub : String) :
    goContains (pre ++ sub) sub = true := by
  rw [goContains_iff]
  refine ⟨pre.data, [], ?_⟩
  simp [String.data_append]

/-- A wrapped message with a non-empty literal head differs from its cause. -/
theorem wrap_ne (pre idStr mid e : String) (hpre : pre.length ≠ 0) :
    pre ++ idStr ++ mid ++ e ≠ e := by
  intro h
  have hl := congrArg String.length h
  simp only [String.length_append] at hl
  omega

/-- Scanning for a prefix cannot cross a character absent from the pattern. -/
theorem isPrefixOf_append_notmem (c : Char) :
    ∀ (sub xs b : List Char), c ∉ sub →
      sub.isPrefixOf (xs ++ c :: b) = sub.isPrefixOf xs := by
  intro sub
  induction sub with
  | nil => intro xs b _; simp [List.isPrefixOf]
  | cons d ds ih =>
    intro xs b hc
    cases xs with
    | nil =>
      have hdc : (d == c) = false := by
        simp only [beq_eq_false_iff_ne, ne_eq]
        intro h; exact hc (by simp [h])
      simp [List.isPrefixOf, hdc]
    | cons x xs' =>
      have hc' : c ∉ ds := fun h => hc (List.mem_cons_of_mem d h)
      simp only [List.cons_append, List.isPrefixOf, List.append_eq]
      rw [ih xs' b hc']

/-- A substring search splits at a separator character absent from the
pattern. -/
theorem charsContains_append_cons (c : Char) (sub : List Char) (hc : c ∉ sub) :
    ∀ a b, charsContains sub (a ++ c :: b)
      = (charsContains sub a || charsContains sub b) := by
  intro a
  induction a with
  | nil =>
    intro b
    cases sub with
    | nil => simp [charsContains, List.isPrefixOf]
    | cons d ds =>
      have hdc : (d == c) = false := by
        simp only [beq_eq_false_iff_ne, ne_eq]
        intro h; exact hc (by simp [h])
      simp [charsContains, List.isPrefixOf, hdc]
  | cons x a' ih =>
    intro b
    have h1 := isPrefixOf_append_notmem c sub (x :: a') b hc
    simp only [List.cons_append] at h1
    simp only [List.cons_append, charsContains, List.append_eq]
    rw [h1, ih b]
    simp [Bool.or_assoc]

/-- `splitOnColon` never returns the empty list of fields. -/
theorem splitOnColon_ne_nil : ∀ cs : List Char, splitOnColon cs ≠ [] := by
  intro cs
  cases cs with
  | nil => simp [splitOnColon]
  | cons c cs =>
    by_cases hc : c = ':'
    · simp [splitOnColon, hc]
    · simp only [splitOnColon, hc, if_false]
      cases splitOnColon cs <;> simp

/-- With no colon in the input, the split is the single whole field. -/
theorem splitOnColon_no_colon : ∀ cs : List Char, ':' ∉ cs → splitOnColon cs = [cs] := by
  intro cs
  induction cs with
  | nil => intro _; rfl
  | cons c cs ih =>
    intro h
    have hc : ¬ c = ':' := fun hh => h (by simp [hh])
    have ih' := ih (fun hm => h (List.mem_cons_of_mem c hm))
    simp [splitOnColon, hc, ih']

/-- The first field of the split is the run of characters before the first
colon. -/
theorem splitOnColon_cons_form : ∀ cs : List Char,
    ∃ gs, splitOnColon cs = (cs.takeWhile (fun d => !(d == ':'))) :: gs := by
  intro cs
  induction cs with
  | nil => exact ⟨[], rfl⟩
  | cons c cs ih =>
    by_cases hc : c = ':'
    · subst hc
      refine ⟨splitOnColon cs, ?_⟩
      simp [splitOnColon, List.takeWhile]
    · obtain ⟨gs, hgs⟩ := ih
      refine ⟨gs, ?_⟩
      simp [splitOnColon, hc, hgs, List.takeWhile, Ne.symm]
      simp [show (c == ':') = false by simp [hc]]

/-- The segment after the first colon: it is the second field of the split. -/
def afterFirstColonSeg : List Char → Option (List Char)
  | [] => none
  | c :: cs =>
    if c = ':' then some (cs.takeWhile (fun d => !(d == ':')))
    else afterFirstColonSeg cs

/-- When the input holds a colon, the split has the segment after the first
colon as its second field. -/
theorem splitOnColon_of_mem : ∀ cs : List Char, ':' ∈ cs →
    ∃ seg a rest, afterFirstColonSeg cs = some seg ∧
      splitOnColon cs = a :: seg :: rest := by
  intro cs
  induction cs with
  | nil => intro h; cases h
  | cons c cs ih =>
    intro h
    by_cases hc : c = ':'
    · subst hc
      obtain ⟨gs, hgs⟩ := splitOnColon_cons_form cs
      refine ⟨cs.takeWhile (fun d => !(d == ':')), [], gs, rfl, ?_⟩
      simp [splitOnColon, hgs]
    · have hmem : ':' ∈ cs := by
        cases h with
        | head => exact absurd rfl hc
        | tail _ hm => exact hm
      obtain ⟨seg, a, rest, hafter, hsplit⟩ := ih hmem
      refine ⟨seg, c :: a, rest, ?_, ?_⟩
      · simp [afterFirstColonSeg, hc, hafter]
      · simp [splitOnColon, hc, hsplit]

/-! Concrete stub backends (the call-counting stub of the testable
properties) and concrete wrappers, used to instantiate the theorems. -/

/-- Stub Broker answering every call with success. -/
def nilBroker : Broker := ⟨fun _ => none, fun _ => none, fun _ _ => none⟩

/-- Stub Broker answering every call with a distinct error message. -/
def boomBroker : Broker := ⟨fun _ => some "b1", fun _ => some "b2", fun _ _ => some "b3"⟩

/-- Stub agent answering every TTL call with success. -/
def nilAgent : Agent := ⟨fun _ _ => none, fun _ _ => none⟩

/-- A disabled facade over the success stub. -/
def wDisabled : Wrapper := ⟨false, "svc", "svc1", "prom0", 80, 0, nilBroker⟩

/-- An enabled facade over the success stub. -/
def wEnabled : Wrapper := ⟨true, "svc", "svc1", "prom0", 80, 0, nilBroker⟩

/-- An enabled facade over the erroring stub. -/
def wEnabledBoom : Wrapper := ⟨true, "svc", "svc1", "prom0", 80, 0, boomBroker⟩

/-- The returned error is a wrapped message naming the affected service id and
the underlying cause, and is not the bare cause itself. -/
def errWraps (r : GoError) (serviceID cause : String) : Prop :=
  ∃ m, r = some m ∧ goContains m serviceID = true ∧ goContains m cause = true ∧ m ≠ cause

/-- Register, when enabled, issues exactly one Broker register call carrying
the built appService, whatever the Broker answers. -/
theorem register_calls_eq (w : Wrapper) (tags : List String) (version : String)
    (hen : w.isUseConsul = true) :
    (w.Register tags version).calls = [BrokerCall.register (appServiceFor w tags version)] := by
  cases h : w.consulBroker.registerResp (appServiceFor w tags version) <;>
    simp [Wrapper.Register, hen, h]

/-- C1: when isUseConsul is false, every lifecycle operation (StartMetrics,
StopMetrics, Register, Deregister, SendHealthCheck) returns a nil error,
issues no Broker call, and leaves the wrapper unchanged. -/
theorem C1_disabled_noop (w : Wrapper) (monitorPort : Int) (servicePromID : String)
    (tags : List String) (version : String) (observedError : GoError)
    (h : w.isUseConsul = false) :
    w.StartMetrics monitorPort servicePromID = ⟨w, [], none⟩ ∧
    w.StopMetrics = ⟨w, [], none⟩ ∧
    w.Register tags version = ⟨w, [], none⟩ ∧
    w.Deregister = ⟨w, [], none⟩ ∧
    w.SendHealthCheck observedError = ⟨w, [], none⟩ := by
  refine ⟨?_, ?_, ?_, ?_, ?_⟩ <;>
    simp [Wrapper.StartMetrics, Wrapper.StopMetrics, Wrapper.Register,
      Wrapper.Deregister, Wrapper.SendHealthCheck, h]

/-- C1 witness at a concrete disabled facade and concrete arguments. -/
theorem C1_disabled_noop_witness :
    wDisabled.StartMetrics 9090 "prom1" = ⟨wDisabled, [], none⟩ ∧
    wDisabled.StopMetrics = ⟨wDisabled, [], none⟩ ∧
    wDisabled.Register ["a"] "v1" = ⟨wDisabled, [], none⟩ ∧
    wDisabled.Deregister = ⟨wDisabled, [], none⟩ ∧
    wDisabled.SendHealthCheck (some "x") = ⟨wDisabled, [], none⟩ :=
  C1_disabled_noop wDisabled 9090 "prom1" ["a"] "v1" (some "x") rfl

/-- C2 counterexample: the claim says every operation wraps a backend failure
with the affected service id, but SendHealthCheck returns the Broker error
unchanged: at the concrete enabled facade with serviceID "svc1" over the
erroring stub, the returned error is exactly the backend message "b3", which
does not contain "svc1". -/
theorem C2_counterexample :
    (wEnabledBoom.SendHealthCheck (some "sick")).err = some "b3" ∧
    goContains "b3" "svc1" = false := by
  constructor
  · rfl
  · decide

/-- C2 (amended): when enabled and the Broker call fails, StartMetrics,
StopMetrics, Register and Deregister each return a wrapped error whose message
contains the affected service id and the underlying cause (and is not the bare
cause); SendHealthCheck instead returns the backend error unchanged — in no
case is the failure swallowed. -/
theorem C2_amended (w : Wrapper) (monitorPort : Int) (servicePromID : String)
    (tags : List String) (version : String) (observedMsg : String)
    (e1 e2 e3 e4 e5 e6 : String)
    (hen : w.isUseConsul = true)
    (h1 : w.consulBroker.registerResp (promServiceFor w.serviceName servicePromID monitorPort) = some e1)
    (h2 : w.consulBroker.deregisterResp w.servicePromID = some e2)
    (h3 : w.consulBroker.registerResp (appServiceFor w tags version) = some e3)
    (h4 : w.consulBroker.deregisterResp w.serviceID = some e4)
    (h5 : w.consulBroker.healthResp w.serviceID observedMsg = some e5)
    (h6 : w.consulBroker.healthResp w.serviceID "" = some e6) :
    errWraps (w.StartMetrics monitorPort servicePromID).err servicePromID e1 ∧
    errWraps (w.StopMetrics).err w.servicePromID e2 ∧
    errWraps (w.Register tags version).err w.serviceID e3 ∧
    errWraps (w.Deregister).err w.serviceID e4 ∧
    (w.SendHealthCheck (some observedMsg)).err = some e5 ∧
    (w.SendHealthCheck none).err = some e6 := by
  refine ⟨?_, ?_, ?_, ?_, ?_, ?_⟩
  · have heq : (w.StartMetrics monitorPort servicePromID).err
        = some ("can not register service " ++ servicePromID ++ " in consul " ++ e1) := by
      simp only [promServiceFor] at h1
      simp [Wrapper.StartMetrics, hen, h1, promServiceFor]
    exact ⟨_, heq, goContains_left_mid _ _ _ _, goContains_right_part _ _,
      wrap_ne _ _ _ _ (by decide)⟩
  · have heq : (w.StopMetrics).err
        = some ("do not deregister consul service " ++ w.servicePromID ++ ", got error " ++ e2) := by
      simp [Wrapper.StopMetrics, hen, h2]
    exact ⟨_, heq, goContains_left_mid _ _ _ _, goContains_right_part _ _,
      wrap_ne _ _ _ _ (by decide)⟩
  · have heq : (w.Register tags version).err
        = some ("do not deregister consul service " ++ w.serviceID ++ ", got error " ++ e3) := by
      simp [Wrapper.Register, hen, h3]
    exact ⟨_, heq, goContains_left_mid _ _ _ _, goContains_right_part _ _,
      wrap_ne _ _ _ _ (by decide)⟩
  · have heq : (w.Deregister).err
        = some ("do not deregister consul service " ++ w.serviceID ++ ", got error " ++ e4) := by
      simp [Wrapper.Deregister, hen, h4]
    exact ⟨_, heq, goContains_left_mid _ _ _ _, goContains_right_part _ _,
      wrap_ne _ _ _ _ (by decide)⟩
  · simp [Wrapper.SendHealthCheck, hen, h5]
  · simp [Wrapper.SendHealthCheck, hen, h6]

/-- C2 (amended) witness at the concrete erroring stub. -/
theorem C2_amended_witness :
    errWraps (wEnabledBoom.StartMetrics 9090 "prom9").err "prom9" "b1" ∧
    errWraps (wEnabledBoom.StopMetrics).err "prom0" "b2" ∧
    errWraps (wEnabledBoom.Register ["a"] "v1").err "svc1" "b1" ∧
    errWraps (wEnabledBoom.Deregister).err "svc1" "b2" ∧
    (wEnabledBoom.SendHealthCheck (some "sick")).err = some "b3" ∧
    (wEnabledBoom.SendHealthCheck none).err = some "b3" :=
  C2_amended wEnabledBoom 9090 "prom9" ["a"] "v1" "sick" "b1" "b2" "b1" "b2" "b3" "b3"
    rfl rfl rfl rfl rfl rfl rfl

/-- C3 counterexample: the claim says a no-colon input makes NewWrapper fail
with a ParseError, but getServicePort returns a NIL error for "noport" (the
failure is only logged), so NewWrapper succeeds. -/
theorem C3_counterexample :
    (getServicePort "noport").err = none ∧
    (NewWrapper [] "noport" nilBroker "svc" "svc1").toOption.isSome = true := by
  exact ⟨rfl, rfl⟩

/-- C3 (amended): a no-colon input yields a logged parse-failure message but
port 0 and a nil error, and NewWrapper succeeds with servicePort 0; an input
whose second colon-delimited field is not a base-10 integer yields a parse
error and NewWrapper fails with the wrapped ParseError message. -/
theorem C3_amended (env : List (String × String)) (br : Broker)
    (serviceName serviceID : String) (s : String) :
    (':' ∉ s.data →
      getServicePort s = ⟨0, none, ["fail parse service port. not found \x27:\x27"]⟩ ∧
      ∃ w, NewWrapper env s br serviceName serviceID = .ok w ∧ w.servicePort = 0) ∧
    (∀ a seg rest e, splitOnColon s.data = a :: seg :: rest →
      goAtoi (String.mk seg) = .error e →
      getServicePort s = ⟨0, some e, ["fail parse service port " ++ e]⟩ ∧
      NewWrapper env s br serviceName serviceID
        = .error ("can\x27t parse service port " ++ e)) := by
  constructor
  · intro hnc
    have hsp : getServicePort s
        = ⟨0, none, ["fail parse service port. not found \x27:\x27"]⟩ := by
      simp [getServicePort, splitOnColon_no_colon s.data hnc]
    refine ⟨hsp, ⟨isUseConsul env, serviceName, serviceID, "", 0, 0, br⟩, ?_, rfl⟩
    simp [NewWrapper, hsp]
  · intro a seg rest e hsplit hatoi
    have hsp : getServicePort s = ⟨0, some e, ["fail parse service port " ++ e]⟩ := by
      simp [getServicePort, hsplit, portResultOfSeg, hatoi]
    exact ⟨hsp, by simp [NewWrapper, hsp]⟩

/-- C3 (amended) witness at the two representative inputs "noport" and
"host:abc". -/
theorem C3_amended_witness :
    (getServicePort "noport"
        = ⟨0, none, ["fail parse service port. not found \x27:\x27"]⟩ ∧
      ∃ w, NewWrapper [] "noport" nilBroker "svc" "svc1" = .ok w ∧ w.servicePort = 0) ∧
    (getServicePort "host:abc"
        = ⟨0, some "strconv.Atoi: parsing \x22abc\x22: invalid syntax",
            ["fail parse service port strconv.Atoi: parsing \x22abc\x22: invalid syntax"]⟩ ∧
      NewWrapper [] "host:abc" nilBroker "svc" "svc1"
        = .error "can\x27t parse service port strconv.Atoi: parsing \x22abc\x22: invalid syntax") :=
  ⟨(C3_amended [] nilBroker "svc" "svc1" "noport").1 (by decide),
   (C3_amended [] nilBroker "svc" "svc1" "host:abc").2
     "host".data "abc".data [] "strconv.Atoi: parsing \x22abc\x22: invalid syntax"
     (by decide) rfl⟩

/-- The spec-side reading of the port field (for C4): the LAST colon-delimited
segment of the input. -/
def lastColonSegment (hostPort : String) : String :=
  String.mk ((splitOnColon hostPort.data).reverse.headD [])

/-- C4 counterexample: the claim says the last colon-delimited segment is
parsed, but for "a:1:2" getServicePort parses the second field and returns
port 1, while the last segment "2" parses to 2. -/
theorem C4_counterexample :
    getServicePort "a:1:2" = ⟨1, none, []⟩ ∧
    lastColonSegment "a:1:2" = "2" ∧
    goAtoi (lastColonSegment "a:1:2") = .ok 2 := by
  refine ⟨by decide, by decide, rfl⟩

/-- C4 (amended): for every input containing at least one colon, the port is
obtained from the segment after the FIRST colon (the second colon-delimited
field), parsed as a base-10 integer — not from the last segment. -/
theorem C4_amended (s : String) (h : ':' ∈ s.data) :
    ∃ seg, afterFirstColonSeg s.data = some seg ∧
      getServicePort s = portResultOfSeg seg := by
  obtain ⟨seg, a, rest, hafter, hsplit⟩ := splitOnColon_of_mem s.data h
  exact ⟨seg, hafter, by simp [getServicePort, hsplit]⟩

/-- C4 (amended) witness at the three-field input "a:1:2". -/
theorem C4_amended_witness :
    ∃ seg, afterFirstColonSeg ("a:1:2").data = some seg ∧
      getServicePort "a:1:2" = portResultOfSeg seg :=
  C4_amended "a:1:2" (by decide)

/-- Modelled from the spec: enablement computed from environment variable
NAMES only (a variable whose name contains the discovery prefix), for
comparison with the implemented isUseConsul. -/
def specNameEnablement (env : List (String × String)) : Bool :=
  env.any fun kv => goContains kv.1 "CONSUL_"

/-- C5 counterexample: the claim says a variable whose VALUE contains
"CONSUL_" does not enable, but isUseConsul scans the whole "name=value"
string: the environment [("FOO", "CONSUL_ADDR")] enables although no variable
name contains the prefix. -/
theorem C5_counterexample :
    isUseConsul [("FOO", "CONSUL_ADDR")] = true ∧
    specNameEnablement [("FOO", "CONSUL_ADDR")] = false := by
  refine ⟨by decide, by decide⟩

/-- C5 (amended): the enablement flag is true iff at least one environment
entry contains "CONSUL_" in its name OR in its value (the scan runs over the
rendered "name=value" strings, and "CONSUL_" cannot straddle the "="
separator). -/
theorem C5_amended (env : List (String × String)) :
    isUseConsul env
      = env.any fun kv => goContains kv.1 "CONSUL_" || goContains kv.2 "CONSUL_" := by
  have key : ∀ k v : String,
      goContains (k ++ "=" ++ v) "CONSUL_"
        = (goContains k "CONSUL_" || goContains v "CONSUL_") := by
    intro k v
    have hdata : (k ++ "=" ++ v).data = k.data ++ '=' :: v.data := by
      simp [String.data_append]
    have hnm : '=' ∉ ("CONSUL_" : String).data := by decide
    show charsContains ("CONSUL_" : String).data (k ++ "=" ++ v).data = _
    rw [hdata, charsContains_append_cons '=' _ hnm]
    rfl
  induction env with
  | nil => rfl
  | cons kv env ih =>
    simp only [isUseConsul, environ, List.map_cons, List.any_cons] at ih ⊢
    rw [key kv.1 kv.2, ih]

/-- C6: when enabled, Register submits exactly one registration whose tag
sequence is the caller tags followed by the version when the version is
non-empty, and the caller tags unchanged when the version is empty. -/
theorem C6_register_tags (w : Wrapper) (tags : List String) (version : String)
    (hen : w.isUseConsul = true) :
    ∃ s, (w.Register tags version).calls = [BrokerCall.register s] ∧
      s.Tags = (if version = "" then tags else tags ++ [version]) := by
  refine ⟨appServiceFor w tags version, register_calls_eq w tags version hen, ?_⟩
  by_cases hv : version = "" <;> simp [appServiceFor, hv]

/-- C6 witness: Register with tags [a, b] and version v1 submits tags
[a, b, v1]; with version empty it submits [a] unchanged. -/
theorem C6_register_tags_witness :
    (∃ s, (wEnabled.Register ["a", "b"] "v1").calls = [BrokerCall.register s] ∧
      s.Tags = ["a", "b", "v1"]) ∧
    (∃ s, (wEnabled.Register ["a"] "").calls = [BrokerCall.register s] ∧
      s.Tags = ["a"]) :=
  ⟨C6_register_tags wEnabled ["a", "b"] "v1" rfl,
   C6_register_tags wEnabled ["a"] "" rfl⟩

/-- C7: when enabled, SendHealthCheck nil issues exactly one Broker
reportHealth call for the primary service id with an empty message, and
SendHealthCheck with a non-nil error issues exactly one call carrying exactly
that error message. -/
theorem C7_health_signal (w : Wrapper) (m : String) (hen : w.isUseConsul = true) :
    (w.SendHealthCheck none).calls = [BrokerCall.sendHealthCheck w.serviceID ""] ∧
    (w.SendHealthCheck (some m)).calls = [BrokerCall.sendHealthCheck w.serviceID m] := by
  constructor
  · cases h : w.consulBroker.healthResp w.serviceID "" <;>
      simp [Wrapper.SendHealthCheck, hen, h]
  · cases h : w.consulBroker.healthResp w.serviceID m <;>
      simp [Wrapper.SendHealthCheck, hen, h]

/-- C7 witness at a concrete enabled facade and error message. -/
theorem C7_health_signal_witness :
    (wEnabled.SendHealthCheck none).calls = [BrokerCall.sendHealthCheck "svc1" ""] ∧
    (wEnabled.SendHealthCheck (some "sick")).calls
      = [BrokerCall.sendHealthCheck "svc1" "sick"] :=
  C7_health_signal wEnabled "sick" rfl

/-- C8: when enabled, the registration Register submits always carries a TTL
check of 5 seconds (the Go duration string "5s") and no HTTP check, for every
tags and version. -/
theorem C8_ttl_check (w : Wrapper) (tags : List String) (version : String)
    (hen : w.isUseConsul = true) :
    ∃ s, (w.Register tags version).calls = [BrokerCall.register s] ∧
      s.Check.TTL = "5s" ∧ s.Check.HTTP = "" ∧ s.ID = w.serviceID := by
  exact ⟨appServiceFor w tags version, register_calls_eq w tags version hen, rfl, rfl, rfl⟩

/-- C8 witness at a concrete enabled facade. -/
theorem C8_ttl_check_witness :
    ∃ s, (wEnabled.Register ["a"] "v1").calls = [BrokerCall.register s] ∧
      s.Check.TTL = "5s" ∧ s.Check.HTTP = "" ∧ s.ID = "svc1" :=
  C8_ttl_check wEnabled ["a"] "v1" rfl

/-- C9: when enabled, StartMetrics immediately followed by StopMetrics issues
exactly one Broker register call (id = metricsServiceID, port = monitorPort,
tags exactly ["prom"]) and then exactly one deregister call with the same
metricsServiceID, in that order. -/
theorem C9_metrics_cycle (w : Wrapper) (monitorPort : Int) (metricsServiceID : String)
    (hen : w.isUseConsul = true) :
    ∃ s, (w.StartMetrics monitorPort metricsServiceID).calls
        ++ ((w.StartMetrics monitorPort metricsServiceID).w.StopMetrics).calls
      = [BrokerCall.register s, BrokerCall.deregister metricsServiceID] ∧
      s.ID = metricsServiceID ∧ s.Port = monitorPort ∧ s.Tags = ["prom"] := by
  refine ⟨promServiceFor w.serviceName metricsServiceID monitorPort, ?_, rfl, rfl, rfl⟩
  have hsm : (w.StartMetrics monitorPort metricsServiceID).w
        = { w with monitorPort := monitorPort, servicePromID := metricsServiceID } ∧
      (w.StartMetrics monitorPort metricsServiceID).calls
        = [BrokerCall.register (promServiceFor w.serviceName metricsServiceID monitorPort)] := by
    cases h : w.consulBroker.registerResp (promServiceFor w.serviceName metricsServiceID monitorPort) <;>
      simp [Wrapper.StartMetrics, hen, h]
  rw [hsm.1, hsm.2]
  cases h2 : w.consulBroker.deregisterResp metricsServiceID <;>
    simp [Wrapper.StopMetrics, hen, h2]

/-- C9 witness at a concrete enabled facade, monitor port 9090 and metrics id
prom1. -/
theorem C9_metrics_cycle_witness :
    ∃ s, (wEnabled.StartMetrics 9090 "prom1").calls
        ++ ((wEnabled.StartMetrics 9090 "prom1").w.StopMetrics).calls
      = [BrokerCall.register s, BrokerCall.deregister "prom1"] ∧
      s.ID = "prom1" ∧ s.Port = 9090 ∧ s.Tags = ["prom"] :=
  C9_metrics_cycle wEnabled 9090 "prom1" rfl

/-- C10: the Broker implementation prefixes the service id with "service:"
before calling the TTL endpoint; a passing report (empty message) carries the
note "ok", a failing report carries exactly the given message. -/
theorem C10_ttl_translation (ag : Agent) (serviceID m : String) (hm : m ≠ "") :
    (brokerSendHealthCheck ag serviceID "").1
      = [AgentCall.passTTL ("service:" ++ serviceID) "ok"] ∧
    (brokerSendHealthCheck ag serviceID m).1
      = [AgentCall.failTTL ("service:" ++ serviceID) m] := by
  constructor
  · cases h : ag.passResp ("service:" ++ serviceID) "ok" <;>
      simp [brokerSendHealthCheck, h]
  · cases h : ag.failResp ("service:" ++ serviceID) m <;>
      simp [brokerSendHealthCheck, hm, h]

/-- C10 witness at the success-stub agent, service id svc1 and failure
message bad. -/
theorem C10_ttl_translation_witness :
    (brokerSendHealthCheck nilAgent "svc1" "").1
      = [AgentCall.passTTL "service:svc1" "ok"] ∧
    (brokerSendHealthCheck nilAgent "svc1" "bad").1
      = [AgentCall.failTTL "service:svc1" "bad"] :=
  C10_ttl_translation nilAgent "svc1" "bad" (by decide)

end Consul
